import Mathlib

/-!
Shallow embedding of `spykeutils/plot/analog_signals.py` (the signal plot
builder) and proofs about the claims of its specification.

Numeric sample values, timestamps and rates are modelled as exact rationals.
Physical units are modelled as a unit string together with (for time units)
a conversion factor to seconds, so that `rescale` becomes division by the
factor.  The GUI toolkit objects (curves, subplots, windows) are modelled as
plain data recording exactly what the source code hands to the toolkit, in
the order it does so; the progress indicator is modelled as a counter.
-/

namespace Spykeutils

/-- A recording channel backreference (identity plus name, as used for the
window title). -/
structure RecordingChannel where
  id : Nat
  name : String
deriving DecidableEq, Repr

/-- A segment backreference (identity plus name, as used for the window
title). -/
structure Segment where
  id : Nat
  name : String
deriving DecidableEq, Repr

/-- A logical unit (cell identity) used for color and legend grouping. -/
structure NeoUnit where
  id : Nat
deriving DecidableEq, Repr

/-- An `AnalogSignal`: ordered samples with a sampling rate (in Hz), a
physical unit string (`dimensionality.string`), and backreferences. -/
structure AnalogSignal where
  samples : List ℚ
  sampling_rate : ℚ
  units : String
  recordingchannel : RecordingChannel
  segment : Segment
deriving DecidableEq, Repr

/-- A labeled time point, drawn by `helper.add_events`. -/
structure PlotEvent where
  time : ℚ
  label : String
deriving DecidableEq, Repr

/-- A labeled time interval, drawn by `helper.add_epochs`. -/
structure Epoch where
  time : ℚ
  duration : ℚ
  label : String
deriving DecidableEq, Repr

/-- A detected spike: timestamp (seconds), optional left sweep (seconds),
sampling rate (Hz), per-channel waveform samples (rows are sample indices,
columns are channels) and its logical unit. -/
structure Spike where
  time : ℚ
  left_sweep : Option ℚ
  sampling_rate : ℚ
  waveform : List (List ℚ)
  unit : NeoUnit
deriving DecidableEq, Repr

/-- A spike train: spike timestamps belonging to one logical unit, with an
optional waveform payload (one waveform per spike). -/
structure SpikeTrain where
  times : List ℚ
  waveforms : List (List (List ℚ))
  left_sweep : Option ℚ
  sampling_rate : ℚ
  unit : NeoUnit
deriving DecidableEq, Repr

/-- A time unit: its display string and its size in seconds (positive), so
`rescale` divides by the factor. -/
structure TimeUnit where
  name : String
  factor : ℚ
deriving DecidableEq, Repr

/-- Rescale a value given in seconds into `u`: division by the unit size. -/
def rescaleTo (u : TimeUnit) (t : ℚ) : ℚ :=
  t / u.factor

/-- Modelled from the spec: `helper.get_object_color` is not under `src/`;
per the spec it assigns every logical unit a draw color
"derived deterministically from its logical unit, independent of draw
order", i.e. it is a function of the unit alone.  Colors are modelled as
naturals. -/
def get_object_color (u : NeoUnit) : Nat :=
  u.id

/-- Modelled from the spec: `conversions.spikes_from_spike_train` is not
under `src/`; per the spec it converts "every spike train's member spikes
... into individual spike-waveform records (extracted from the train's own
waveform payload)", keeping the train's unit, left sweep and sampling
rate. -/
def spikes_from_spike_train (st : SpikeTrain) : List Spike :=
  (st.times.zip st.waveforms).map fun tw =>
    { time := tw.1, left_sweep := st.left_sweep,
      sampling_rate := st.sampling_rate, waveform := tw.2, unit := st.unit }

/-- `array.min()` of a nonempty sample array (0 on the empty array, which
the source never queries). -/
def listMin : List ℚ → ℚ
  | [] => 0
  | a :: as => as.foldl min a

/-- `array.max()` of a nonempty sample array (0 on the empty array, which
the source never queries). -/
def listMax : List ℚ → ℚ
  | [] => 0
  | a :: as => as.foldl max a

/-- `scipy.arange(start, stop, step)` for a positive step: the values
`start + k * step` for `0 ≤ k < ⌈(stop - start) / step⌉`. -/
def arange (start stop step : ℚ) : List ℚ :=
  (List.range (⌈(stop - start) / step⌉.toNat)).map fun k => start + (k : ℚ) * step

/-- The effective left sweep of a spike: `0.0 * pq.ms` when the attribute is
absent or Python-falsy (a zero quantity), the attribute's value otherwise
(source lines 176-179). -/
def leftSweepOf (sp : Spike) : ℚ :=
  match sp.left_sweep with
  | none => 0
  | some v => if v = 0 then 0 else v

/-- The x coordinates of a drawn spike waveform, in the plot's x unit
(source lines 180-184): `arange` from `spike.time - left_sweep` to
`spike.time - left_sweep + waveform_length / sampling_rate` at spacing
`1 / sampling_rate`, every endpoint rescaled to the x unit. -/
def spike_x (sp : Spike) (xu : TimeUnit) : List ℚ :=
  arange (rescaleTo xu (sp.time - leftSweepOf sp))
    (rescaleTo xu ((sp.waveform.length : ℚ) / sp.sampling_rate
      + sp.time - leftSweepOf sp))
    (rescaleTo xu (1 / sp.sampling_rate))

/-- The per-channel waveform slice `spike.waveform[:, channel]`. -/
def waveCol (sp : Spike) (channel : Nat) : List ℚ :=
  sp.waveform.map fun row => row.getD channel 0

/-- An item added to a plot.  Signal curves, spike-waveform curves (which
remember the spike they were built from, their coordinates and their
color), events, epochs, and spike-train vertical tick marks. -/
inductive PlotItem where
  | curve (xs ys : List ℚ)
  | waveformCurve (sp : Spike) (xs ys : List ℚ) (color : Nat)
  | eventItem (e : PlotEvent)
  | epochItem (e : Epoch)
  | spikeTicks (st : SpikeTrain) (color : Nat)
deriving DecidableEq, Repr

/-- One curve plot (a `BaseCurveWidget`'s plot): its items in insertion
order and its axis labels. -/
structure SubPlot where
  items : List PlotItem
  yAxisUnit : Option String
  xAxisUnit : Option String
  xAxisTitle : Option String
deriving DecidableEq, Repr

/-- The progress indicator's observable state: the tick budget passed to
`set_ticks`, the number of `step()` calls, and whether `done()` ran. -/
structure Progress where
  ticks_set : Nat
  steps : Nat
  done_called : Bool
deriving DecidableEq, Repr

/-- The plot window: title and subplots in the order they were added. -/
structure PlotWindow where
  title : String
  subplots : List SubPlot
deriving DecidableEq, Repr

/-- Everything a call to the builder produces. -/
structure BuildResult where
  win : PlotWindow
  progress : Progress
deriving DecidableEq, Repr

/-- Default signal used for out-of-range list indexing (never reached on
the index ranges the source uses). -/
def noSignal : AnalogSignal :=
  { samples := [], sampling_rate := 1, units := "",
    recordingchannel := { id := 0, name := "" },
    segment := { id := 0, name := "" } }

/-- Default subplot for out-of-range indexing in theorem statements. -/
def emptySub : SubPlot :=
  { items := [], yAxisUnit := none, xAxisUnit := none, xAxisTitle := none }

/-- `_add_spike_waveforms` (source lines 172-189): for each spike, resolve
its color from its unit, build its x window and add one curve of its
per-channel waveform slice shifted by `offset`; one progress step per
spike.  Returns the added items and the number of steps. -/
def add_spike_waveforms (spikes : List Spike) (x_units : TimeUnit)
    (channel : Nat) (offset : ℚ) : List PlotItem × Nat :=
  spikes.foldl
    (fun acc sp =>
      (acc.1 ++ [PlotItem.waveformCurve sp (spike_x sp x_units)
        ((waveCol sp channel).map fun v => v + offset)
        (get_object_color sp.unit)],
       acc.2 + 1))
    ([], 0)

/-- The recording-channel fragment of the window title (source lines
58-61): appended when all signals yield one distinct recording channel
whose name is truthy (non-empty). -/
def rcFragment (signals : List AnalogSignal) : String :=
  if (signals.map (fun s => s.recordingchannel)).toFinset.card = 1 then
    if (signals.headD noSignal).recordingchannel.name ≠ "" then
      " | Recording Channel: " ++ (signals.headD noSignal).recordingchannel.name
    else ""
  else ""

/-- The segment fragment of the window title (source lines 62-64). -/
def segFragment (signals : List AnalogSignal) : String :=
  if (signals.map (fun s => s.segment)).toFinset.card = 1 then
    if (signals.headD noSignal).segment.name ≠ "" then
      " | Segment: " ++ (signals.headD noSignal).segment.name
    else ""
  else ""

/-- The window title (source lines 56-64). -/
def winTitle (signals : List AnalogSignal) : String :=
  "Analog Signal" ++ rcFragment signals ++ segFragment signals

/-- The x axis values (source lines 87-90): one sample period is
`(1 / sampling_rate).simplified` seconds, `x = arange(shape[0]) * sample`,
then converted into `time_unit`. -/
def xAxis (signals : List AnalogSignal) (time_unit : TimeUnit) : List ℚ :=
  (List.range (signals.headD noSignal).samples.length).map fun i =>
    rescaleTo time_unit ((i : ℚ) * (1 / (signals.headD noSignal).sampling_rate))

/-- The consecutive pairs `(channels[i-1], channels[i])` visited by the
offset loop `for i, c in enumerate(channels[1:], 1)` (source line 129). -/
def consecPairs : List Nat → List (Nat × Nat)
  | a :: b :: rest => (a, b) :: consecPairs (b :: rest)
  | _ => []

/-- The stacked-mode offset computation (source lines 127-132): starting
from `0 * units`, fold over the consecutive channel pairs, replacing the
accumulator by `signals[prev].max() - signals[cur].min()` whenever that is
larger. -/
def maxOffsetOf (signals : List AnalogSignal) (ps : List (Nat × Nat)) : ℚ :=
  ps.foldl
    (fun m p =>
      if m < listMax (signals.getD p.1 noSignal).samples
          - listMin (signals.getD p.2 noSignal).samples then
        listMax (signals.getD p.1 noSignal).samples
          - listMin (signals.getD p.2 noSignal).samples
      else m)
    0

/-- The stacked-mode per-channel loop (source lines 136-142): for each
channel `c`, add the curve `(x, signals[c] + offset)` and both waveform
overlays at the current offset, then advance the offset by `max_offset`
and consume one progress step.  Returns items and steps. -/
def stackedItems (x : List ℚ) (signals : List AnalogSignal)
    (spikes draw_spikes : List Spike) (time_unit : TimeUnit)
    (max_offset : ℚ) : List Nat → ℚ → List PlotItem × Nat
  | [], _ => ([], 0)
  | c :: rest, offset =>
    let w1 := add_spike_waveforms spikes time_unit c offset
    let w2 := add_spike_waveforms draw_spikes time_unit c offset
    let r := stackedItems x signals spikes draw_spikes time_unit max_offset
      rest (offset + max_offset)
    (PlotItem.curve x (((signals.getD c noSignal).samples).map fun v => v + offset)
        :: (w1.1 ++ w2.1 ++ r.1),
      w1.2 + w2.2 + 1 + r.2)

/-- One split-mode channel iteration (source lines 95-115): a fresh
subplot with epochs, the raw curve `(x, signals[c])`, events, both waveform
overlays at zero offset and (when not in train-waveform mode) a tick-mark
item per spike train colored by its unit; the y axis carries the signal's
unit string.  Returns the subplot and its progress steps. -/
def splitChannel (signals : List AnalogSignal) (events : List PlotEvent)
    (epochs : List Epoch) (spike_trains : List SpikeTrain)
    (spikes draw_spikes : List Spike) (spike_train_waveforms : Bool)
    (x : List ℚ) (time_unit : TimeUnit) (c : Nat) : SubPlot × Nat :=
  let w1 := add_spike_waveforms spikes time_unit c 0
  let w2 := add_spike_waveforms draw_spikes time_unit c 0
  ({ items := epochs.map PlotItem.epochItem
        ++ [PlotItem.curve x (signals.getD c noSignal).samples]
        ++ events.map PlotItem.eventItem
        ++ w1.1 ++ w2.1
        ++ (if spike_train_waveforms then []
            else spike_trains.map fun t =>
              PlotItem.spikeTicks t (get_object_color t.unit)),
      yAxisUnit := some (signals.getD c noSignal).units,
      xAxisUnit := none, xAxisTitle := none },
    w1.2 + w2.2 + 1)

/-- Apply `f` to the last element of a list (the subplot the source's
`plot` variable points at after the split-mode loop). -/
def mapLast (f : SubPlot → SubPlot) : List SubPlot → List SubPlot
  | [] => []
  | [a] => [f a]
  | a :: b :: rest => a :: mapLast f (b :: rest)

/-- The body of the `signals` builder after the empty check (source lines
56-169): title, overlay normalization already applied, spike-waveform
source selection, progress budget, x axis, then either the split-mode or
the stacked-mode construction. -/
def buildCore (signals : List AnalogSignal) (events : List PlotEvent)
    (epochs : List Epoch) (spike_trains : List SpikeTrain)
    (spikes : List Spike) (spike_train_waveforms : Bool)
    (use_subplots : Bool) (time_unit : TimeUnit) : BuildResult :=
  let draw_spikes :=
    if spike_train_waveforms then
      spike_trains.foldl (fun acc st => acc ++ spikes_from_spike_train st) []
    else spikes
  let channels := List.range signals.length
  let ticks := (draw_spikes.length + spikes.length + 1) * channels.length
  let x := xAxis signals time_unit
  if use_subplots then
    let parts := channels.map
      (splitChannel signals events epochs spike_trains spikes draw_spikes
        spike_train_waveforms x time_unit)
    { win := { title := winTitle signals,
               subplots := mapLast
                 (fun sp => { sp with xAxisTitle := some "Time",
                                      xAxisUnit := some time_unit.name })
                 (parts.map Prod.fst) },
      progress := { ticks_set := ticks,
                    steps := (parts.map Prod.snd).sum,
                    done_called := true } }
  else
    let channelsR := channels.reverse
    let max_offset := maxOffsetOf signals (consecPairs channelsR)
    let offset := 0 - listMin ((signals.getD (channelsR.headD 0) noSignal).samples)
    let lp := stackedItems x signals spikes draw_spikes time_unit max_offset
      channelsR offset
    { win := { title := winTitle signals,
               subplots := [{ items := epochs.map PlotItem.epochItem
                                ++ lp.1
                                ++ events.map PlotItem.eventItem
                                ++ (if spike_train_waveforms then []
                                    else spike_trains.map fun t =>
                                      PlotItem.spikeTicks t
                                        (get_object_color t.unit)),
                              yAxisUnit := some (signals.headD noSignal).units,
                              xAxisUnit := some time_unit.name,
                              xAxisTitle := some "Time" }] },
      progress := { ticks_set := ticks, steps := lp.2, done_called := true } }

/-- The `signals` builder entry point (source lines 18-169): with an empty
signal list it raises the domain error before any window construction;
otherwise (missing overlay collections defaulting to empty) it builds the
window.  The unused `y_unit` parameter is kept from the source
signature. -/
def signals (signals : List AnalogSignal) (events : Option (List PlotEvent))
    (epochs : Option (List Epoch)) (spike_trains : Option (List SpikeTrain))
    (spikes : Option (List Spike)) (spike_train_waveforms : Bool)
    (use_subplots : Bool) (time_unit : TimeUnit) (y_unit : Option String) :
    Except String BuildResult :=
  if signals.isEmpty then
    Except.error "Cannot create signal plot: No signal data provided!"
  else
    Except.ok (buildCore signals (events.getD []) (epochs.getD [])
      (spike_trains.getD []) (spikes.getD []) spike_train_waveforms
      use_subplots time_unit)

/-- The builder's input collections, threaded through a call so that the
frame claim (inputs unchanged on return) can be stated. -/
structure Env where
  sigs : List AnalogSignal
  events : Option (List PlotEvent)
  epochs : Option (List Epoch)
  spike_trains : Option (List SpikeTrain)
  spikes : Option (List Spike)
deriving DecidableEq, Repr

/-- The builder as a state transformer on its inputs: the source mutates no
input (the order reversal acts on the locally constructed `range` list,
stacked offsetting maps `signals[c] + offset` into fresh arrays), so the
threaded collections come back as they went in. -/
def signalsEnv (env : Env) (spike_train_waveforms use_subplots : Bool)
    (time_unit : TimeUnit) (y_unit : Option String) :
    Except String (Env × BuildResult) :=
  (signals env.sigs env.events env.epochs env.spike_trains env.spikes
    spike_train_waveforms use_subplots time_unit y_unit).map
    fun r => (env, r)

/-- Project a plain signal-curve item onto its `(x, y)` data. -/
def curveExtract : PlotItem → Option (List ℚ × List ℚ)
  | PlotItem.curve xs ys => some (xs, ys)
  | _ => none

/-- Project a waveform-curve item onto its source spike and color. -/
def waveExtract : PlotItem → Option (Spike × Nat)
  | PlotItem.waveformCurve s _ _ col => some (s, col)
  | _ => none

/-- Project a spike-train tick-mark item onto its train and color. -/
def tickExtract : PlotItem → Option (SpikeTrain × Nat)
  | PlotItem.spikeTicks t col => some (t, col)
  | _ => none

/-- The signal curves of a subplot, in insertion order: the `(x, y)` data
of the plain (non-waveform) curves. -/
def signalCurves (sp : SubPlot) : List (List ℚ × List ℚ) :=
  sp.items.filterMap curveExtract

/-- The waveform-overlay curves of a subplot: source spike and color. -/
def waveItems (sp : SubPlot) : List (Spike × Nat) :=
  sp.items.filterMap waveExtract

/-- The spikes a subplot draws as waveform overlays, in drawing order. -/
def waveSpikes (sp : SubPlot) : List Spike :=
  (waveItems sp).map Prod.fst

/-- The spike-train tick-mark items of a subplot: train and color. -/
def tickItems (sp : SubPlot) : List (SpikeTrain × Nat) :=
  sp.items.filterMap tickExtract

/-- All waveform-overlay curves of a window. -/
def windowWaveItems (w : PlotWindow) : List (Spike × Nat) :=
  (w.subplots.map waveItems).flatten

/-- Project any colored item — a spike waveform curve or a spike-train
tick-mark item — onto its logical unit and its draw color. -/
def colorExtract : PlotItem → Option (NeoUnit × Nat)
  | PlotItem.waveformCurve s _ _ col => some (s.unit, col)
  | PlotItem.spikeTicks t col => some (t.unit, col)
  | _ => none

/-- The unit/color pairs of all colored items of a subplot: spike waveform
curves and spike-train tick marks alike. -/
def coloredItems (sp : SubPlot) : List (NeoUnit × Nat) :=
  sp.items.filterMap colorExtract

/-- The unit/color pairs of all colored items of a window. -/
def windowColoredItems (w : PlotWindow) : List (NeoUnit × Nat) :=
  (w.subplots.map coloredItems).flatten

/-- Pair each list element with its position, starting at `k`. -/
def withIdx {α : Type _} : Nat → List α → List (Nat × α)
  | _, [] => []
  | k, a :: as => (k, a) :: withIdx (k + 1) as

/-- Follows the claim's words (C1): the stacked-mode curves the claim
predicts, with `max_offset` the plain maximum over the consecutive
reversed-channel pairs of (previous channel's max − current channel's
min), initial offset the negation of the first reversed channel's minimum,
and the k-th drawn channel shifted by the initial offset plus k times
`max_offset`. -/
def claimStackedCurves (sigs : List AnalogSignal) (x : List ℚ) :
    List (List ℚ × List ℚ) :=
  let chans := (List.range sigs.length).reverse
  let m := listMax ((consecPairs chans).map fun p =>
    listMax (sigs.getD p.1 noSignal).samples
      - listMin (sigs.getD p.2 noSignal).samples)
  let off0 := -(listMin (sigs.getD (chans.headD 0) noSignal).samples)
  (withIdx 0 chans).map fun kc =>
    (x, ((sigs.getD kc.2 noSignal).samples).map fun v =>
      v + (off0 + (kc.1 : ℚ) * m))

/-- The amended form of C1: as `claimStackedCurves`, but `max_offset` is
the maximum of `0` and the consecutive-pair differences (the code clamps
the accumulated offset at zero). -/
def amendedStackedCurves (sigs : List AnalogSignal) (x : List ℚ) :
    List (List ℚ × List ℚ) :=
  let chans := (List.range sigs.length).reverse
  let m := ((consecPairs chans).map fun p =>
    listMax (sigs.getD p.1 noSignal).samples
      - listMin (sigs.getD p.2 noSignal).samples).foldl max 0
  let off0 := -(listMin (sigs.getD (chans.headD 0) noSignal).samples)
  (withIdx 0 chans).map fun kc =>
    (x, ((sigs.getD kc.2 noSignal).samples).map fun v =>
      v + (off0 + (kc.1 : ℚ) * m))

/- Concrete inputs used by witnesses and counterexamples. -/

/-- A recording channel named "ch". -/
def rcDemo : RecordingChannel := { id := 0, name := "ch" }

/-- A segment named "sg". -/
def segDemo : Segment := { id := 0, name := "sg" }

/-- A logical unit. -/
def unitDemo : NeoUnit := { id := 3 }

/-- The time unit "s" (factor 1). -/
def tuS : TimeUnit := { name := "s", factor := 1 }

/-- A one-sample signal with value 5. -/
def sigA : AnalogSignal :=
  { samples := [5], sampling_rate := 1, units := "mV",
    recordingchannel := rcDemo, segment := segDemo }

/-- A one-sample signal with value -10. -/
def sigB : AnalogSignal :=
  { samples := [-10], sampling_rate := 1, units := "mV",
    recordingchannel := rcDemo, segment := segDemo }

/-- A one-sample spike at time 0 with no left sweep. -/
def spDemo : Spike :=
  { time := 0, left_sweep := none, sampling_rate := 1,
    waveform := [[1]], unit := unitDemo }

/-- A second spike of the same unit at time 2. -/
def spDemo2 : Spike :=
  { time := 2, left_sweep := none, sampling_rate := 1,
    waveform := [[4]], unit := unitDemo }

/-- A spike train of `unitDemo` with one timestamp and one waveform. -/
def trainDemo : SpikeTrain :=
  { times := [1], waveforms := [[[2]]], left_sweep := none,
    sampling_rate := 1, unit := unitDemo }

/- Generic list lemmas. -/

/-- `filterMap` after `map` vanishes when the extractor rejects the mapped
constructor. -/
theorem filterMap_map_none {α β γ : Type _} (f : β → Option γ) (g : α → β)
    (l : List α) (h : ∀ a, f (g a) = none) : (l.map g).filterMap f = [] := by
  induction l with
  | nil => rfl
  | cons a t ih => simp [h, ih]

/-- `filterMap` after `map` is a `map` when the extractor accepts the
mapped constructor. -/
theorem filterMap_map_some {α β γ : Type _} (f : β → Option γ) (g : α → β)
    (e : α → γ) (l : List α) (h : ∀ a, f (g a) = some (e a)) :
    (l.map g).filterMap f = l.map e := by
  induction l with
  | nil => rfl
  | cons a t ih => simp [h, ih]

/-- Folding list append over a constructor function, with accumulator. -/
theorem foldl_append_eq {α β : Type _} (f : α → List β) :
    ∀ (l : List α) (a : List β),
      l.foldl (fun acc st => acc ++ f st) a = a ++ (l.map f).flatten := by
  intro l
  induction l with
  | nil => intro a; simp
  | cons s t ih => intro a; simp [ih]

/-- `withIdx` with a shifted start index. -/
theorem withIdx_shift {α : Type _} (l : List α) :
    ∀ k, withIdx (k + 1) l = (withIdx k l).map fun p => (p.1 + 1, p.2) := by
  induction l with
  | nil => intro k; rfl
  | cons a t ih => intro k; simp [withIdx, ih]

/-- `getD` on a map over `List.range`. -/
theorem getD_map_range {β : Type _} (g : Nat → β) (n c : Nat) (d : β)
    (h : c < n) : ((List.range n).map g).getD c d = g c := by
  rw [List.getD_eq_getElem?_getD, List.getElem?_map, List.getElem?_range h]
  rfl

/-- The head of the reversed `List.range n`. -/
theorem range_reverse_headD (n : Nat) (h : n ≠ 0) :
    ((List.range n).reverse).headD 0 = n - 1 := by
  cases n with
  | zero => exact absurd rfl h
  | succ m => rw [List.range_succ, List.reverse_append]; simp

/-- A nonempty list of values maps onto a one-element `Finset` exactly when
all its members equal its head. -/
theorem toFinset_card_one_iff {α : Type _} [DecidableEq α] (a0 : α)
    (t : List α) : (a0 :: t).toFinset.card = 1 ↔ ∀ x ∈ a0 :: t, x = a0 := by
  constructor
  · rw [Finset.card_eq_one]
    rintro ⟨a, ha⟩ x hx
    have h0 : a0 ∈ (a0 :: t).toFinset := List.mem_toFinset.mpr (by simp)
    have hx' : x ∈ (a0 :: t).toFinset := List.mem_toFinset.mpr hx
    rw [ha, Finset.mem_singleton] at h0 hx'
    rw [hx', h0]
  · intro hall
    rw [Finset.card_eq_one]
    refine ⟨a0, Finset.ext fun y => ?_⟩
    rw [List.mem_toFinset, Finset.mem_singleton]
    constructor
    · exact fun hy => hall y hy
    · rintro rfl; simp

/- Structural lemmas about the embedded builder. -/

/-- The waveform item `_add_spike_waveforms` builds for one spike. -/
def waveItemOf (x_units : TimeUnit) (channel : Nat) (offset : ℚ)
    (sp : Spike) : PlotItem :=
  PlotItem.waveformCurve sp (spike_x sp x_units)
    ((waveCol sp channel).map fun v => v + offset)
    (get_object_color sp.unit)

/-- Closed form of the `_add_spike_waveforms` fold: one waveform item per
spike, in order, and one progress step per spike. -/
theorem add_spike_waveforms_eq (spikes : List Spike) (x_units : TimeUnit)
    (channel : Nat) (offset : ℚ) :
    add_spike_waveforms spikes x_units channel offset
      = (spikes.map (waveItemOf x_units channel offset), spikes.length) := by
  have aux : ∀ (l : List Spike) (a : List PlotItem) (n : Nat),
      l.foldl (fun acc sp =>
        (acc.1 ++ [waveItemOf x_units channel offset sp], acc.2 + 1)) (a, n)
        = (a ++ l.map (waveItemOf x_units channel offset), n + l.length) := by
    intro l
    induction l with
    | nil => intro a n; simp
    | cons sp t ih => intro a n; simp [ih]; omega
  have := aux spikes [] 0
  simpa [add_spike_waveforms, waveItemOf] using this

/-- Waveform items contribute no plain signal curve. -/
theorem signalCurves_waveItems (spikes : List Spike) (x_units : TimeUnit)
    (channel : Nat) (offset : ℚ) :
    (spikes.map (waveItemOf x_units channel offset)).filterMap curveExtract
      = [] :=
  filterMap_map_none _ _ _ fun a => rfl

/-- Epoch items contribute no plain signal curve. -/
theorem curve_none_epochs (l : List Epoch) :
    (l.map PlotItem.epochItem).filterMap curveExtract = [] :=
  filterMap_map_none _ _ _ fun a => rfl

/-- Event items contribute no plain signal curve. -/
theorem curve_none_events (l : List PlotEvent) :
    (l.map PlotItem.eventItem).filterMap curveExtract = [] :=
  filterMap_map_none _ _ _ fun a => rfl

/-- Tick-mark items contribute no plain signal curve. -/
theorem curve_none_ticks (l : List SpikeTrain) :
    (l.map fun t => PlotItem.spikeTicks t (get_object_color t.unit)).filterMap
      curveExtract = [] :=
  filterMap_map_none _ _ _ fun a => rfl

/-- Epoch items contribute no waveform curve. -/
theorem wave_none_epochs (l : List Epoch) :
    (l.map PlotItem.epochItem).filterMap waveExtract = [] :=
  filterMap_map_none _ _ _ fun a => rfl

/-- Event items contribute no waveform curve. -/
theorem wave_none_events (l : List PlotEvent) :
    (l.map PlotItem.eventItem).filterMap waveExtract = [] :=
  filterMap_map_none _ _ _ fun a => rfl

/-- Tick-mark items contribute no waveform curve. -/
theorem wave_none_ticks (l : List SpikeTrain) :
    (l.map fun t => PlotItem.spikeTicks t (get_object_color t.unit)).filterMap
      waveExtract = [] :=
  filterMap_map_none _ _ _ fun a => rfl

/-- The waveform curves added for a spike list: one per spike, colored by
`get_object_color` of the spike's unit. -/
theorem wave_some_waves (spikes : List Spike) (x_units : TimeUnit)
    (channel : Nat) (offset : ℚ) :
    (spikes.map (waveItemOf x_units channel offset)).filterMap waveExtract
      = spikes.map fun sp => (sp, get_object_color sp.unit) :=
  filterMap_map_some _ _ _ _ fun a => rfl

/-- Epoch items contribute no tick-mark entry. -/
theorem tick_none_epochs (l : List Epoch) :
    (l.map PlotItem.epochItem).filterMap tickExtract = [] :=
  filterMap_map_none _ _ _ fun a => rfl

/-- Event items contribute no tick-mark entry. -/
theorem tick_none_events (l : List PlotEvent) :
    (l.map PlotItem.eventItem).filterMap tickExtract = [] :=
  filterMap_map_none _ _ _ fun a => rfl

/-- Waveform items contribute no tick-mark entry. -/
theorem tick_none_waves (spikes : List Spike) (x_units : TimeUnit)
    (channel : Nat) (offset : ℚ) :
    (spikes.map (waveItemOf x_units channel offset)).filterMap tickExtract
      = [] :=
  filterMap_map_none _ _ _ fun a => rfl

/-- The tick-mark entries added for a train list: one per train, colored by
`get_object_color` of the train's unit. -/
theorem tick_some_ticks (l : List SpikeTrain) :
    (l.map fun t => PlotItem.spikeTicks t (get_object_color t.unit)).filterMap
      tickExtract = l.map fun t => (t, get_object_color t.unit) :=
  filterMap_map_some _ _ _ _ fun a => rfl

/-- Composed form of `curve_none_epochs`. -/
theorem curve_none_epochs_c (l : List Epoch) :
    l.filterMap (curveExtract ∘ PlotItem.epochItem) = [] := by
  rw [← List.filterMap_map]; exact curve_none_epochs l

/-- Composed form of `curve_none_events`. -/
theorem curve_none_events_c (l : List PlotEvent) :
    l.filterMap (curveExtract ∘ PlotItem.eventItem) = [] := by
  rw [← List.filterMap_map]; exact curve_none_events l

/-- Composed form of `curve_none_ticks`. -/
theorem curve_none_ticks_c (l : List SpikeTrain) :
    l.filterMap (curveExtract ∘ fun t =>
      PlotItem.spikeTicks t (get_object_color t.unit)) = [] := by
  rw [← List.filterMap_map]; exact curve_none_ticks l

/-- Composed form of `wave_none_epochs`. -/
theorem wave_none_epochs_c (l : List Epoch) :
    l.filterMap (waveExtract ∘ PlotItem.epochItem) = [] := by
  rw [← List.filterMap_map]; exact wave_none_epochs l

/-- Composed form of `wave_none_events`. -/
theorem wave_none_events_c (l : List PlotEvent) :
    l.filterMap (waveExtract ∘ PlotItem.eventItem) = [] := by
  rw [← List.filterMap_map]; exact wave_none_events l

/-- Composed form of `wave_none_ticks`. -/
theorem wave_none_ticks_c (l : List SpikeTrain) :
    l.filterMap (waveExtract ∘ fun t =>
      PlotItem.spikeTicks t (get_object_color t.unit)) = [] := by
  rw [← List.filterMap_map]; exact wave_none_ticks l

/-- Composed form of `wave_some_waves`. -/
theorem wave_some_waves_c (spikes : List Spike) (x_units : TimeUnit)
    (channel : Nat) (offset : ℚ) :
    spikes.filterMap (waveExtract ∘ waveItemOf x_units channel offset)
      = spikes.map fun sp => (sp, get_object_color sp.unit) := by
  rw [← List.filterMap_map]; exact wave_some_waves spikes x_units channel offset

/-- Composed form of `tick_none_epochs`. -/
theorem tick_none_epochs_c (l : List Epoch) :
    l.filterMap (tickExtract ∘ PlotItem.epochItem) = [] := by
  rw [← List.filterMap_map]; exact tick_none_epochs l

/-- Composed form of `tick_none_events`. -/
theorem tick_none_events_c (l : List PlotEvent) :
    l.filterMap (tickExtract ∘ PlotItem.eventItem) = [] := by
  rw [← List.filterMap_map]; exact tick_none_events l

/-- Composed form of `tick_none_waves`. -/
theorem tick_none_waves_c (spikes : List Spike) (x_units : TimeUnit)
    (channel : Nat) (offset : ℚ) :
    spikes.filterMap (tickExtract ∘ waveItemOf x_units channel offset) = [] := by
  rw [← List.filterMap_map]; exact tick_none_waves spikes x_units channel offset

/-- Composed form of `tick_some_ticks`. -/
theorem tick_some_ticks_c (l : List SpikeTrain) :
    l.filterMap (tickExtract ∘ fun t =>
      PlotItem.spikeTicks t (get_object_color t.unit))
      = l.map fun t => (t, get_object_color t.unit) := by
  rw [← List.filterMap_map]; exact tick_some_ticks l

/-- Epoch items carry no draw color. -/
theorem color_none_epochs (l : List Epoch) :
    (l.map PlotItem.epochItem).filterMap colorExtract = [] :=
  filterMap_map_none _ _ _ fun a => rfl

/-- Event items carry no draw color. -/
theorem color_none_events (l : List PlotEvent) :
    (l.map PlotItem.eventItem).filterMap colorExtract = [] :=
  filterMap_map_none _ _ _ fun a => rfl

/-- The unit/color pairs of the waveform items added for a spike list. -/
theorem color_some_waves (spikes : List Spike) (x_units : TimeUnit)
    (channel : Nat) (offset : ℚ) :
    (spikes.map (waveItemOf x_units channel offset)).filterMap colorExtract
      = spikes.map fun sp => (sp.unit, get_object_color sp.unit) :=
  filterMap_map_some _ _ _ _ fun a => rfl

/-- The unit/color pairs of the tick-mark items added for a train list. -/
theorem color_some_ticks (l : List SpikeTrain) :
    (l.map fun t => PlotItem.spikeTicks t (get_object_color t.unit)).filterMap
      colorExtract = l.map fun t => (t.unit, get_object_color t.unit) :=
  filterMap_map_some _ _ _ _ fun a => rfl

/-- Composed form of `color_none_epochs`. -/
theorem color_none_epochs_c (l : List Epoch) :
    l.filterMap (colorExtract ∘ PlotItem.epochItem) = [] := by
  rw [← List.filterMap_map]; exact color_none_epochs l

/-- Composed form of `color_none_events`. -/
theorem color_none_events_c (l : List PlotEvent) :
    l.filterMap (colorExtract ∘ PlotItem.eventItem) = [] := by
  rw [← List.filterMap_map]; exact color_none_events l

/-- Composed form of `color_some_waves`. -/
theorem color_some_waves_c (spikes : List Spike) (x_units : TimeUnit)
    (channel : Nat) (offset : ℚ) :
    spikes.filterMap (colorExtract ∘ waveItemOf x_units channel offset)
      = spikes.map fun sp => (sp.unit, get_object_color sp.unit) := by
  rw [← List.filterMap_map]; exact color_some_waves spikes x_units channel offset

/-- Composed form of `color_some_ticks`. -/
theorem color_some_ticks_c (l : List SpikeTrain) :
    l.filterMap (colorExtract ∘ fun t =>
      PlotItem.spikeTicks t (get_object_color t.unit))
      = l.map fun t => (t.unit, get_object_color t.unit) := by
  rw [← List.filterMap_map]; exact color_some_ticks l

/-- Composed form of `signalCurves_waveItems`. -/
theorem curve_none_waves_c (spikes : List Spike) (x_units : TimeUnit)
    (channel : Nat) (offset : ℚ) :
    spikes.filterMap (curveExtract ∘ waveItemOf x_units channel offset)
      = [] := by
  rw [← List.filterMap_map]
  exact signalCurves_waveItems spikes x_units channel offset

/-- Appending a string of nonzero length to the left never yields the
empty string. -/
theorem str_append_ne_empty (s t : String) (hs : s.length ≠ 0) :
    s ++ t ≠ "" := by
  intro he
  have hl := congrArg String.length he
  rw [String.length_append] at hl
  have h0 : ("" : String).length = 0 := rfl
  rw [h0] at hl
  omega

/-- `if a < b then b else a` is `max`. -/
theorem if_lt_eq_max (a b : ℚ) : (if a < b then b else a) = max a b := by
  rcases le_or_lt b a with h | h
  · rw [if_neg (not_lt.mpr h), max_eq_left h]
  · rw [if_pos h, max_eq_right h.le]

/-- The source's fold-with-comparison offset computation is the fold of
`max` over `0` and the consecutive-pair differences. -/
theorem maxOffsetOf_eq (sigs : List AnalogSignal) (ps : List (Nat × Nat)) :
    maxOffsetOf sigs ps
      = ((ps.map fun p => listMax (sigs.getD p.1 noSignal).samples
          - listMin (sigs.getD p.2 noSignal).samples).foldl max 0) := by
  rw [maxOffsetOf, List.foldl_map]
  congr 1
  funext m p
  exact if_lt_eq_max _ _

/-- The signal curves added by the stacked-mode loop: one per channel in
loop order, the k-th drawn at the entry offset plus `k * max_offset`. -/
theorem stacked_signalCurves (x : List ℚ) (sigs : List AnalogSignal)
    (spikes draw_spikes : List Spike) (tu : TimeUnit) (M : ℚ) :
    ∀ (chans : List Nat) (off : ℚ),
      (stackedItems x sigs spikes draw_spikes tu M chans off).1.filterMap
        curveExtract
        = (withIdx 0 chans).map fun kc =>
            (x, ((sigs.getD kc.2 noSignal).samples).map fun v =>
              v + (off + (kc.1 : ℚ) * M)) := by
  intro chans
  induction chans with
  | nil => intro off; rfl
  | cons c rest ih =>
    intro off
    rw [stackedItems]
    simp only [List.filterMap_cons, List.filterMap_append, curveExtract,
      add_spike_waveforms_eq, signalCurves_waveItems, ih (off + M),
      List.nil_append]
    rw [withIdx, withIdx_shift, List.map_cons, List.map_map]
    congr 1
    · simp
    · apply List.map_congr_left
      rintro ⟨k, c'⟩ -
      have hq : off + M + (k : ℚ) * M = off + ((k : ℚ) + 1) * M := by ring
      simp only [Function.comp]
      push_cast
      rw [hq]

/-- The progress steps consumed by the stacked-mode loop: one per waveform
in either overlay collection plus one per channel. -/
theorem stacked_steps (x : List ℚ) (sigs : List AnalogSignal)
    (spikes draw_spikes : List Spike) (tu : TimeUnit) (M : ℚ) :
    ∀ (chans : List Nat) (off : ℚ),
      (stackedItems x sigs spikes draw_spikes tu M chans off).2
        = chans.length * (spikes.length + draw_spikes.length + 1) := by
  intro chans
  induction chans with
  | nil => intro off; simp [stackedItems]
  | cons c rest ih =>
    intro off
    rw [stackedItems]
    simp only [add_spike_waveforms_eq, ih (off + M), List.length_cons]
    ring

/-- `mapLast` preserves length. -/
theorem mapLast_length (f : SubPlot → SubPlot) :
    ∀ l : List SubPlot, (mapLast f l).length = l.length := by
  intro l
  induction l with
  | nil => rfl
  | cons a t ih =>
    cases t with
    | nil => rfl
    | cons b r => simpa [mapLast] using ih

/-- `mapLast` commutes with any projection that `f` preserves. -/
theorem mapLast_getD_proj {β : Type _} (g : SubPlot → β) (f : SubPlot → SubPlot)
    (hf : ∀ sp, g (f sp) = g sp) :
    ∀ (l : List SubPlot) (c : Nat) (d : SubPlot),
      g ((mapLast f l).getD c d) = g (l.getD c d) := by
  intro l
  induction l with
  | nil => intro c d; rfl
  | cons a t ih =>
    intro c d
    cases t with
    | nil =>
      cases c with
      | zero => exact hf a
      | succ k => rfl
    | cons b r =>
      cases c with
      | zero => rfl
      | succ k => exact ih k d

/-- `mapLast` with an axis-only update leaves every subplot's items in
place. -/
theorem mapLast_getD_items (f : SubPlot → SubPlot)
    (hf : ∀ sp, (f sp).items = sp.items) (l : List SubPlot) (c : Nat)
    (d : SubPlot) : ((mapLast f l).getD c d).items = (l.getD c d).items :=
  mapLast_getD_proj (fun sp => sp.items) f hf l c d

/-- `mapLast` with an axis-only update leaves every subplot's y-axis unit
in place. -/
theorem mapLast_getD_yAxis (f : SubPlot → SubPlot)
    (hf : ∀ sp, (f sp).yAxisUnit = sp.yAxisUnit) (l : List SubPlot) (c : Nat)
    (d : SubPlot) :
    ((mapLast f l).getD c d).yAxisUnit = (l.getD c d).yAxisUnit :=
  mapLast_getD_proj (fun sp => sp.yAxisUnit) f hf l c d

/-- `mapLast` applies `f` exactly at the final position. -/
theorem mapLast_getD_last (f : SubPlot → SubPlot) :
    ∀ (l : List SubPlot) (d : SubPlot), l ≠ [] →
      (mapLast f l).getD (l.length - 1) d = f (l.getD (l.length - 1) d) := by
  intro l
  induction l with
  | nil => intro d h; exact absurd rfl h
  | cons a t ih =>
    intro d _
    cases t with
    | nil => rfl
    | cons b r =>
      have h1 : (a :: b :: r).length - 1 = (b :: r).length - 1 + 1 := by
        simp
      rw [h1]
      show (mapLast f (b :: r)).getD ((b :: r).length - 1) d
        = f ((b :: r).getD ((b :: r).length - 1) d)
      exact ih d (by simp)

/- Claim theorems. -/

/-- C2: for every call with an empty signals list, the builder raises the
domain error ("no signal data") and creates no plot window: the result is
the error alone, carrying no `BuildResult`, produced before any window
construction or drawing. -/
theorem C2_empty_error (events : Option (List PlotEvent))
    (epochs : Option (List Epoch)) (spike_trains : Option (List SpikeTrain))
    (spikes : Option (List Spike)) (spike_train_waveforms use_subplots : Bool)
    (tu : TimeUnit) (yu : Option String) :
    signals [] events epochs spike_trains spikes spike_train_waveforms
      use_subplots tu yu
      = Except.error "Cannot create signal plot: No signal data provided!" :=
  rfl

/-- C10: the builder does not mutate any of its input collections: the
threaded inputs come back unchanged on every successful return (stacked
offsetting maps `signals[c] + offset` into fresh lists, and the order
reversal applies only to the locally constructed `List.range` index
list). -/
theorem C10_no_input_mutation (env : Env)
    (spike_train_waveforms use_subplots : Bool) (tu : TimeUnit)
    (yu : Option String) :
    (signalsEnv env spike_train_waveforms use_subplots tu yu).map Prod.fst
      = if env.sigs.isEmpty then
          Except.error "Cannot create signal plot: No signal data provided!"
        else Except.ok env := by
  rw [signalsEnv, signals]
  by_cases h : env.sigs.isEmpty
  · simp [h, Except.map]
  · simp [h, Except.map]

/-- C1 counterexample: on two one-sample signals with samples `[5]` and
`[-10]`, the maximum over consecutive reversed-channel pairs of (previous
max − current min) is `-15`, but the code clamps `max_offset` at `0`, so
the curves actually drawn differ from the ones the claim predicts. -/
theorem C1_clamp_cex :
    (buildCore [sigA, sigB] [] [] [] [] true false tuS).win.subplots.map
      signalCurves
      ≠ [claimStackedCurves [sigA, sigB] (xAxis [sigA, sigB] tuS)] := by
  have h2 : List.range 2 = [0, 1] := rfl
  have h1 : List.range 1 = [0] := rfl
  norm_num [h2, h1, buildCore, claimStackedCurves, xAxis, signalCurves,
    stackedItems, add_spike_waveforms, maxOffsetOf, consecPairs, withIdx,
    listMin, listMax, sigA, sigB, tuS, rescaleTo, noSignal, curveExtract,
    List.filterMap_cons]

/-- C1 (amended): in stacked mode, for every non-empty signal list the
builder draws the reversed channels with one accumulating offset whose
initial value is the negation of the first reversed channel's minimum and
whose increment `max_offset` is the maximum of `0` and the consecutive
reversed-pair differences (previous channel's max − current channel's
min); the k-th drawn curve is `signal[c]` plus the initial offset plus
`k * max_offset`. -/
theorem C1_stacked_offsets (sigs : List AnalogSignal) (events : List PlotEvent)
    (epochs : List Epoch) (trains : List SpikeTrain) (spikes : List Spike)
    (spike_train_waveforms : Bool) (tu : TimeUnit) (h : sigs ≠ []) :
    (buildCore sigs events epochs trains spikes spike_train_waveforms false
      tu).win.subplots.map signalCurves
      = [amendedStackedCurves sigs (xAxis sigs tu)] := by
  cases spike_train_waveforms <;>
    simp [buildCore, signalCurves, curve_none_epochs_c, curve_none_events_c,
      curve_none_ticks_c, stacked_signalCurves, amendedStackedCurves,
      maxOffsetOf_eq]

/-- C1 witness: the amended statement at the two-signal demo input. -/
theorem C1_stacked_offsets_witness :
    ([sigA, sigB] ≠ ([] : List AnalogSignal)) ∧
    (buildCore [sigA, sigB] [] [] [] [] true false tuS).win.subplots.map
      signalCurves
      = [amendedStackedCurves [sigA, sigB] (xAxis [sigA, sigB] tuS)] :=
  ⟨by simp, C1_stacked_offsets [sigA, sigB] [] [] [] [] true tuS (by simp)⟩

/-- C3 counterexample: for a single signal with no overlays the builder
consumes exactly one progress tick (the one channel-setup step), not the
two the claim states. -/
theorem C3_single_tick_cex :
    (buildCore [sigA] [] [] [] [] true true tuS).progress.steps = 1 ∧
    (buildCore [sigA] [] [] [] [] true true tuS).progress.steps ≠ 2 := by
  have h1 : List.range 1 = [0] := rfl
  norm_num [h1, buildCore, splitChannel, add_spike_waveforms]

/-- C3 (amended): for every call, the tick budget passed to `set_ticks`
is (number of waveform-overlay spikes drawn from trains — the explicit
collection again when `spike_train_waveforms` is false — + number of
spikes in the explicit collection + 1) × number of channels, the ticks
consumed (one per channel setup and one per waveform segment drawn) equal
that budget exactly, and in particular a single signal with no overlays
consumes exactly 1 tick. -/
theorem C3_progress_budget (sigs : List AnalogSignal) (events : List PlotEvent)
    (epochs : List Epoch) (trains : List SpikeTrain) (spikes : List Spike)
    (spike_train_waveforms use_subplots : Bool) (tu : TimeUnit) :
    (buildCore sigs events epochs trains spikes spike_train_waveforms
        use_subplots tu).progress.ticks_set
      = ((if spike_train_waveforms then
            (trains.map fun st => (spikes_from_spike_train st).length).sum
          else spikes.length) + spikes.length + 1) * sigs.length ∧
    (buildCore sigs events epochs trains spikes spike_train_waveforms
        use_subplots tu).progress.steps
      = (buildCore sigs events epochs trains spikes spike_train_waveforms
          use_subplots tu).progress.ticks_set := by
  have hD : (if spike_train_waveforms then
        trains.foldl (fun acc st => acc ++ spikes_from_spike_train st)
          ([] : List Spike)
      else spikes).length
      = (if spike_train_waveforms then
          (trains.map fun st => (spikes_from_spike_train st).length).sum
        else spikes.length) := by
    cases spike_train_waveforms
    · simp
    · simp only [if_true, foldl_append_eq, List.nil_append,
        List.length_flatten, List.map_map]
      rfl
  cases use_subplots
  · refine ⟨?_, ?_⟩
    · simp only [buildCore, Bool.false_eq_true, if_false]
      rw [hD, List.length_range]
    · simp only [buildCore, Bool.false_eq_true, if_false, stacked_steps,
        List.length_reverse, List.length_range]
      ring
  · refine ⟨?_, ?_⟩
    · simp only [buildCore, if_true]
      rw [hD, List.length_range]
    · simp only [buildCore, if_true, List.map_map]
      have hsnd : (Prod.snd ∘ splitChannel sigs events epochs trains spikes
          (if spike_train_waveforms then
            trains.foldl (fun acc st => acc ++ spikes_from_spike_train st) []
          else spikes) spike_train_waveforms (xAxis sigs tu) tu)
          = fun _ => spikes.length
            + (if spike_train_waveforms then
                trains.foldl (fun acc st => acc ++ spikes_from_spike_train st)
                  ([] : List Spike)
              else spikes).length + 1 := by
        funext c
        simp [splitChannel, add_spike_waveforms_eq]
      rw [hsnd]
      simp only [List.map_const', List.sum_replicate, smul_eq_mul,
        List.length_range]
      ring

/-- C4 counterexample: with `spike_train_waveforms` false, one signal and
one explicit spike, the subplot draws that spike's waveform twice (the
explicit collection is drawn once as `spikes` and once again as the
aliasing `draw_spikes`), not exactly once as the claim states. -/
theorem C4_single_overlay_cex :
    waveSpikes ((buildCore [sigA] [] [] [] [spDemo] false true
        tuS).win.subplots.getD 0 emptySub) = [spDemo, spDemo] ∧
    waveSpikes ((buildCore [sigA] [] [] [] [spDemo] false true
        tuS).win.subplots.getD 0 emptySub) ≠ [spDemo] := by
  have h1 : List.range 1 = [0] := rfl
  norm_num [h1, buildCore, splitChannel, add_spike_waveforms, mapLast,
    waveSpikes, waveItems, waveExtract, List.filterMap_cons]

/-- C4 (amended): with `spike_train_waveforms` false (split mode), every
subplot draws each spike train as one vertical tick-mark item colored by
the train's unit, and the waveform overlays drawn are exactly the explicit
`spikes` collection twice over (each explicit spike produces exactly two
waveform curves per channel, the collection being drawn both as `spikes`
and as the aliasing `draw_spikes`). -/
theorem C4_ticks_and_double_overlays (sigs : List AnalogSignal)
    (events : List PlotEvent) (epochs : List Epoch) (trains : List SpikeTrain)
    (spikes : List Spike) (tu : TimeUnit) (c : Nat)
    (hc : c < (buildCore sigs events epochs trains spikes false true
      tu).win.subplots.length) :
    tickItems ((buildCore sigs events epochs trains spikes false true
        tu).win.subplots.getD c emptySub)
      = trains.map (fun t => (t, get_object_color t.unit)) ∧
    waveSpikes ((buildCore sigs events epochs trains spikes false true
        tu).win.subplots.getD c emptySub) = spikes ++ spikes := by
  have hn : c < sigs.length := by
    simpa [buildCore, mapLast_length] using hc
  have hstep : (buildCore sigs events epochs trains spikes false true
      tu).win.subplots
      = mapLast
          (fun sp =>
            { sp with
                xAxisTitle := some "Time"
                xAxisUnit := some tu.name })
          (((List.range sigs.length).map
            (splitChannel sigs events epochs trains spikes spikes false
              (xAxis sigs tu) tu)).map Prod.fst) := by
    simp [buildCore]
  rw [hstep, tickItems, waveSpikes, waveItems,
    mapLast_getD_items
      (fun sp =>
        { sp with
            xAxisTitle := some "Time"
            xAxisUnit := some tu.name })
      (fun sp => rfl),
    List.map_map, getD_map_range _ _ _ _ hn]
  constructor
  · simp [splitChannel, add_spike_waveforms_eq, tickExtract,
      tick_none_epochs, tick_none_events, tick_none_waves,
      tick_some_ticks, tick_none_epochs_c, tick_none_events_c,
      tick_none_waves_c, tick_some_ticks_c, List.filterMap_cons]
  · simp [splitChannel, add_spike_waveforms_eq, waveExtract,
      wave_none_epochs, wave_none_events, wave_some_waves,
      wave_none_ticks, wave_none_epochs_c, wave_none_events_c,
      wave_some_waves_c, wave_none_ticks_c, List.filterMap_cons,
      List.map_map]
    have hfst : (Prod.fst ∘ fun sp : Spike => (sp, get_object_color sp.unit))
        = fun sp : Spike => sp := rfl
    rw [hfst]
    simp [List.map_id']

/-- C4 witness: the amended statement at a one-signal input with one train
and one explicit spike. -/
theorem C4_ticks_and_double_overlays_witness :
    0 < (buildCore [sigA] [] [] [trainDemo] [spDemo] false true
      tuS).win.subplots.length ∧
    (tickItems ((buildCore [sigA] [] [] [trainDemo] [spDemo] false true
        tuS).win.subplots.getD 0 emptySub)
      = [trainDemo].map (fun t => (t, get_object_color t.unit)) ∧
    waveSpikes ((buildCore [sigA] [] [] [trainDemo] [spDemo] false true
        tuS).win.subplots.getD 0 emptySub) = [spDemo] ++ [spDemo]) :=
  ⟨by simp [buildCore, mapLast_length],
   C4_ticks_and_double_overlays [sigA] [] [] [trainDemo] [spDemo] tuS 0
     (by simp [buildCore, mapLast_length])⟩

/-- The subplot list the split mode builds: one `splitChannel` subplot per
channel index, the last one carrying the x-axis labels. -/
theorem buildCore_split_subplots (sigs : List AnalogSignal)
    (events : List PlotEvent) (epochs : List Epoch) (trains : List SpikeTrain)
    (spikes : List Spike) (spike_train_waveforms : Bool) (tu : TimeUnit) :
    (buildCore sigs events epochs trains spikes spike_train_waveforms true
      tu).win.subplots
      = mapLast
          (fun sp =>
            { sp with
                xAxisTitle := some "Time"
                xAxisUnit := some tu.name })
          (((List.range sigs.length).map
            (splitChannel sigs events epochs trains spikes
              (if spike_train_waveforms then
                trains.foldl (fun acc st => acc ++ spikes_from_spike_train st)
                  []
              else spikes)
              spike_train_waveforms (xAxis sigs tu) tu)).map Prod.fst) := by
  simp [buildCore]

/-- The single subplot the stacked mode builds. -/
theorem buildCore_stacked_subplots (sigs : List AnalogSignal)
    (events : List PlotEvent) (epochs : List Epoch) (trains : List SpikeTrain)
    (spikes : List Spike) (spike_train_waveforms : Bool) (tu : TimeUnit) :
    (buildCore sigs events epochs trains spikes spike_train_waveforms false
      tu).win.subplots
      = [{ items := epochs.map PlotItem.epochItem
              ++ (stackedItems (xAxis sigs tu) sigs spikes
                (if spike_train_waveforms then
                  trains.foldl
                    (fun acc st => acc ++ spikes_from_spike_train st) []
                else spikes)
                tu
                (maxOffsetOf sigs
                  (consecPairs ((List.range sigs.length).reverse)))
                ((List.range sigs.length).reverse)
                (0 - listMin ((sigs.getD
                  (((List.range sigs.length).reverse).headD 0)
                  noSignal).samples))).1
              ++ events.map PlotItem.eventItem
              ++ (if spike_train_waveforms then []
                  else trains.map fun t =>
                    PlotItem.spikeTicks t (get_object_color t.unit)),
            yAxisUnit := some (sigs.headD noSignal).units,
            xAxisUnit := some tu.name,
            xAxisTitle := some "Time" }] := by
  simp [buildCore]

/-- The title carried by the window the builder constructs. -/
theorem buildCore_title (sigs : List AnalogSignal) (events : List PlotEvent)
    (epochs : List Epoch) (trains : List SpikeTrain) (spikes : List Spike)
    (spike_train_waveforms use_subplots : Bool) (tu : TimeUnit) :
    (buildCore sigs events epochs trains spikes spike_train_waveforms
      use_subplots tu).win.title = winTitle sigs := by
  cases use_subplots <;> simp [buildCore]

/-- The signal curves of one split-mode subplot: exactly the raw channel
curve. -/
theorem splitChannel_signalCurves (sigs : List AnalogSignal)
    (events : List PlotEvent) (epochs : List Epoch) (trains : List SpikeTrain)
    (spikes draw_spikes : List Spike) (spike_train_waveforms : Bool)
    (x : List ℚ) (tu : TimeUnit) (c : Nat) :
    ((splitChannel sigs events epochs trains spikes draw_spikes
      spike_train_waveforms x tu c).1).items.filterMap curveExtract
      = [(x, (sigs.getD c noSignal).samples)] := by
  cases spike_train_waveforms <;>
    simp [splitChannel, add_spike_waveforms_eq, curveExtract,
      curve_none_epochs, curve_none_events, curve_none_ticks,
      signalCurves_waveItems, curve_none_epochs_c, curve_none_events_c,
      curve_none_ticks_c, curve_none_waves_c, List.filterMap_cons]

/-- C5: for every spike the waveform-overlay helper draws, the left sweep
is taken as 0 when absent, and the x coordinates are the window starting
at `spike.time - left_sweep`, spaced `1 / sampling_rate` apart, with one
point per waveform sample, all rescaled to the x unit — so with
`left_sweep = 0`, `L` samples and rate `R` the window spans exactly
`[spike.time, spike.time + L/R)`. -/
theorem C5_waveform_window (sp : Spike) (xu : TimeUnit)
    (hR : 0 < sp.sampling_rate) (hf : 0 < xu.factor) :
    (sp.left_sweep = none → leftSweepOf sp = 0) ∧
    spike_x sp xu = (List.range sp.waveform.length).map
      (fun k => rescaleTo xu (sp.time - leftSweepOf sp
        + (k : ℚ) * (1 / sp.sampling_rate))) := by
  refine ⟨fun h => by simp [leftSweepOf, h], ?_⟩
  rw [spike_x, arange]
  have hfne : xu.factor ≠ 0 := ne_of_gt hf
  have hRne : sp.sampling_rate ≠ 0 := ne_of_gt hR
  have hlen : (rescaleTo xu ((sp.waveform.length : ℚ) / sp.sampling_rate
      + sp.time - leftSweepOf sp) - rescaleTo xu (sp.time - leftSweepOf sp))
      / rescaleTo xu (1 / sp.sampling_rate) = (sp.waveform.length : ℚ) := by
    rw [rescaleTo, rescaleTo, rescaleTo]
    field_simp
    ring
  rw [hlen, Int.ceil_natCast, Int.toNat_natCast]
  apply List.map_congr_left
  intro k _
  rw [rescaleTo, rescaleTo, rescaleTo]
  field_simp
  ring

/-- C5 witness: the window statement at the demo spike and second unit. -/
theorem C5_waveform_window_witness :
    (0 < spDemo.sampling_rate ∧ 0 < tuS.factor) ∧
    ((spDemo.left_sweep = none → leftSweepOf spDemo = 0) ∧
      spike_x spDemo tuS = (List.range spDemo.waveform.length).map
        (fun k => rescaleTo tuS (spDemo.time - leftSweepOf spDemo
          + (k : ℚ) * (1 / spDemo.sampling_rate)))) :=
  ⟨⟨by simp [spDemo], by simp [tuS]⟩,
   C5_waveform_window spDemo tuS (by simp [spDemo]) (by simp [tuS])⟩

/-- C6: for every non-empty signal list, the x axis is derived once from
the first signal — every signal curve drawn, in either mode, carries the x
coordinates `index × (1 / first signal's sampling_rate)` converted to
`time_unit` — and the x-axis unit string shown (set on the last subplot,
the one the source's `plot` variable points at) equals the `time_unit`
argument's unit string, regardless of the signals' own units. -/
theorem C6_x_axis (sigs : List AnalogSignal) (events : List PlotEvent)
    (epochs : List Epoch) (trains : List SpikeTrain) (spikes : List Spike)
    (spike_train_waveforms use_subplots : Bool) (tu : TimeUnit)
    (h : sigs ≠ []) :
    ((buildCore sigs events epochs trains spikes spike_train_waveforms
        use_subplots tu).win.subplots.getD
      ((buildCore sigs events epochs trains spikes spike_train_waveforms
        use_subplots tu).win.subplots.length - 1) emptySub).xAxisUnit
      = some tu.name ∧
    ∀ (c : Nat) (cu : List ℚ × List ℚ),
      cu ∈ signalCurves ((buildCore sigs events epochs trains spikes
        spike_train_waveforms use_subplots tu).win.subplots.getD c emptySub) →
      cu.1 = xAxis sigs tu := by
  cases use_subplots
  · rw [buildCore_stacked_subplots]
    constructor
    · rfl
    · intro c cu hcu
      cases c with
      | zero =>
        rw [signalCurves] at hcu
        cases spike_train_waveforms <;>
          simp only [List.getD_cons_zero, List.filterMap_append,
            curve_none_epochs, curve_none_events, curve_none_ticks,
            stacked_signalCurves, List.nil_append, List.append_nil,
            Bool.false_eq_true, eq_self_iff_true, if_false, if_true,
            List.filterMap_nil] at hcu <;>
          (obtain ⟨kc, _, rfl⟩ := List.mem_map.mp hcu; rfl)
      | succ k =>
        simp [signalCurves, emptySub] at hcu
  · rw [buildCore_split_subplots, List.map_map]
    have hlen : 0 < ((List.range sigs.length).map
        (Prod.fst ∘ splitChannel sigs events epochs trains spikes
          (if spike_train_waveforms then
            trains.foldl (fun acc st => acc ++ spikes_from_spike_train st) []
          else spikes) spike_train_waveforms (xAxis sigs tu) tu)).length := by
      simpa using List.length_pos.mpr h
    constructor
    · rw [mapLast_length, mapLast_getD_last _ _ _ (List.length_pos.mp hlen)]
    · intro c cu hcu
      rw [signalCurves,
        mapLast_getD_items
          (fun sp =>
            { sp with
                xAxisTitle := some "Time"
                xAxisUnit := some tu.name })
          (fun sp => rfl)] at hcu
      by_cases hc : c < sigs.length
      · rw [getD_map_range _ _ _ _ hc] at hcu
        rw [Function.comp_apply, splitChannel_signalCurves] at hcu
        rw [List.mem_singleton] at hcu
        rw [hcu]
      · rw [List.getD_eq_default] at hcu
        · simp [emptySub] at hcu
        · simpa using Nat.le_of_not_lt hc

/-- C6 witness: the x-axis statement at the one-signal demo input. -/
theorem C6_x_axis_witness :
    ([sigA] ≠ ([] : List AnalogSignal)) ∧
    (((buildCore [sigA] [] [] [] [] true true tuS).win.subplots.getD
      ((buildCore [sigA] [] [] [] [] true true tuS).win.subplots.length - 1)
      emptySub).xAxisUnit = some tuS.name ∧
    ∀ (c : Nat) (cu : List ℚ × List ℚ),
      cu ∈ signalCurves ((buildCore [sigA] [] [] [] [] true true
        tuS).win.subplots.getD c emptySub) →
      cu.1 = xAxis [sigA] tuS) :=
  ⟨by simp, C6_x_axis [sigA] [] [] [] [] true true tuS (by simp)⟩

/-- C7: in split mode, for every non-empty signal list exactly
`len(signals)` subplots are created, index-aligned with the input list,
and the subplot at channel index c carries the y-axis unit string of
`signals[c]`. -/
theorem C7_split_alignment (sigs : List AnalogSignal) (events : List PlotEvent)
    (epochs : List Epoch) (trains : List SpikeTrain) (spikes : List Spike)
    (spike_train_waveforms : Bool) (tu : TimeUnit) (c : Nat)
    (hc : c < sigs.length) :
    (buildCore sigs events epochs trains spikes spike_train_waveforms true
      tu).win.subplots.length = sigs.length ∧
    ((buildCore sigs events epochs trains spikes spike_train_waveforms true
      tu).win.subplots.getD c emptySub).yAxisUnit
      = some ((sigs.getD c noSignal).units) := by
  constructor
  · rw [buildCore_split_subplots, mapLast_length]
    simp
  · rw [buildCore_split_subplots,
      mapLast_getD_yAxis
        (fun sp =>
          { sp with
              xAxisTitle := some "Time"
              xAxisUnit := some tu.name })
        (fun sp => rfl),
      List.map_map, getD_map_range _ _ _ _ hc]
    rfl

/-- C7 witness: the split-mode alignment statement at a two-signal demo
input. -/
theorem C7_split_alignment_witness :
    0 < [sigA, sigB].length ∧
    ((buildCore [sigA, sigB] [] [] [] [] true true
      tuS).win.subplots.length = [sigA, sigB].length ∧
    ((buildCore [sigA, sigB] [] [] [] [] true true
      tuS).win.subplots.getD 0 emptySub).yAxisUnit
      = some (([sigA, sigB].getD 0 noSignal).units)) :=
  ⟨by simp,
   C7_split_alignment [sigA, sigB] [] [] [] [] true tuS 0 (by simp)⟩

/-- Every element of `mapLast f l` is an element of `l`, possibly with `f`
applied. -/
theorem mapLast_mem (f : SubPlot → SubPlot) :
    ∀ (l : List SubPlot) (a : SubPlot), a ∈ mapLast f l →
      ∃ b ∈ l, a = f b ∨ a = b := by
  intro l
  induction l with
  | nil => intro a ha; simp [mapLast] at ha
  | cons x t ih =>
    intro a ha
    cases t with
    | nil =>
      rw [mapLast] at ha
      have hax := List.mem_singleton.mp ha
      exact ⟨x, by simp, Or.inl hax⟩
    | cons y r =>
      rw [mapLast] at ha
      rcases List.mem_cons.mp ha with ha2 | h2
      · exact ⟨x, by simp, Or.inr ha2⟩
      · obtain ⟨b, hb, hab⟩ := ih a h2
        exact ⟨b, List.mem_cons_of_mem _ hb, hab⟩

/-- Every waveform curve the stacked loop adds is colored by
`get_object_color` of its spike's unit. -/
theorem stacked_wave_mem (x : List ℚ) (sigs : List AnalogSignal)
    (spikes draw_spikes : List Spike) (tu : TimeUnit) (M : ℚ) :
    ∀ (chans : List Nat) (off : ℚ) (p : Spike × Nat),
      p ∈ (stackedItems x sigs spikes draw_spikes tu M chans
        off).1.filterMap waveExtract →
      p.2 = get_object_color p.1.unit := by
  intro chans
  induction chans with
  | nil => intro off p hp; simp [stackedItems] at hp
  | cons c rest ih =>
    intro off p hp
    rw [stackedItems] at hp
    simp only [List.filterMap_cons, List.filterMap_append, waveExtract,
      add_spike_waveforms_eq, wave_some_waves] at hp
    rcases List.mem_append.mp hp with hp1 | hp2
    · rcases List.mem_append.mp hp1 with ha | hb
      · obtain ⟨sp, _, rfl⟩ := List.mem_map.mp ha; rfl
      · obtain ⟨sp, _, rfl⟩ := List.mem_map.mp hb; rfl
    · exact ih (off + M) p hp2

/-- Every waveform curve in the built window is colored by
`get_object_color` of its spike's unit, in either mode. -/
theorem buildCore_wave_colors (sigs : List AnalogSignal)
    (events : List PlotEvent) (epochs : List Epoch) (trains : List SpikeTrain)
    (spikes : List Spike) (spike_train_waveforms use_subplots : Bool)
    (tu : TimeUnit) :
    ∀ p ∈ windowWaveItems (buildCore sigs events epochs trains spikes
      spike_train_waveforms use_subplots tu).win,
      p.2 = get_object_color p.1.unit := by
  intro p hp
  rw [windowWaveItems, List.mem_flatten] at hp
  obtain ⟨l, hl, hpl⟩ := hp
  obtain ⟨sp, hsp, rfl⟩ := List.mem_map.mp hl
  cases use_subplots
  · rw [buildCore_stacked_subplots] at hsp
    have hsp1 := List.mem_singleton.mp hsp
    subst hsp1
    rw [waveItems] at hpl
    simp only [List.filterMap_append, wave_none_epochs, wave_none_events,
      apply_ite (List.filterMap waveExtract), List.filterMap_nil,
      wave_none_ticks, ite_self, List.append_nil, List.nil_append] at hpl
    exact stacked_wave_mem _ _ _ _ _ _ _ _ p hpl
  · rw [buildCore_split_subplots] at hsp
    obtain ⟨b, hb, hab⟩ := mapLast_mem _ _ _ hsp
    rw [List.map_map] at hb
    obtain ⟨c, _, rfl⟩ := List.mem_map.mp hb
    have hit : sp.items
        = (splitChannel sigs events epochs trains spikes
          (if spike_train_waveforms then
            trains.foldl (fun acc st => acc ++ spikes_from_spike_train st) []
          else spikes) spike_train_waveforms (xAxis sigs tu) tu c).1.items := by
      rcases hab with rfl | rfl <;> rfl
    rw [waveItems, hit] at hpl
    simp only [splitChannel, add_spike_waveforms_eq, List.filterMap_append,
      List.filterMap_cons, waveExtract, wave_none_epochs, wave_none_events,
      wave_some_waves, apply_ite (List.filterMap waveExtract),
      List.filterMap_nil, wave_none_ticks, ite_self, List.append_nil,
      List.nil_append] at hpl
    rcases List.mem_append.mp hpl with h1 | h1 <;>
      (obtain ⟨s, _, rfl⟩ := List.mem_map.mp h1; rfl)

/-- Every colored item the stacked loop adds (all of them waveform curves)
is colored by `get_object_color` of its logical unit. -/
theorem stacked_color_mem (x : List ℚ) (sigs : List AnalogSignal)
    (spikes draw_spikes : List Spike) (tu : TimeUnit) (M : ℚ) :
    ∀ (chans : List Nat) (off : ℚ) (p : NeoUnit × Nat),
      p ∈ (stackedItems x sigs spikes draw_spikes tu M chans
        off).1.filterMap colorExtract →
      p.2 = get_object_color p.1 := by
  intro chans
  induction chans with
  | nil => intro off p hp; simp [stackedItems] at hp
  | cons c rest ih =>
    intro off p hp
    rw [stackedItems] at hp
    simp only [List.filterMap_cons, List.filterMap_append, colorExtract,
      add_spike_waveforms_eq, color_some_waves] at hp
    rcases List.mem_append.mp hp with hp1 | hp2
    · rcases List.mem_append.mp hp1 with ha | hb
      · obtain ⟨sp, _, rfl⟩ := List.mem_map.mp ha; rfl
      · obtain ⟨sp, _, rfl⟩ := List.mem_map.mp hb; rfl
    · exact ih (off + M) p hp2

/-- Every colored item in the built window — spike waveform curve or
spike-train tick marks — is colored by `get_object_color` of its logical
unit, in either mode. -/
theorem buildCore_item_colors (sigs : List AnalogSignal)
    (events : List PlotEvent) (epochs : List Epoch) (trains : List SpikeTrain)
    (spikes : List Spike) (spike_train_waveforms use_subplots : Bool)
    (tu : TimeUnit) :
    ∀ p ∈ windowColoredItems (buildCore sigs events epochs trains spikes
      spike_train_waveforms use_subplots tu).win,
      p.2 = get_object_color p.1 := by
  intro p hp
  rw [windowColoredItems, List.mem_flatten] at hp
  obtain ⟨l, hl, hpl⟩ := hp
  obtain ⟨sp, hsp, rfl⟩ := List.mem_map.mp hl
  cases use_subplots
  · rw [buildCore_stacked_subplots] at hsp
    have hsp1 := List.mem_singleton.mp hsp
    subst hsp1
    rw [coloredItems] at hpl
    cases spike_train_waveforms
    · simp only [List.filterMap_append, color_none_epochs, color_none_events,
        Bool.false_eq_true, if_false, color_some_ticks, List.nil_append,
        List.append_nil] at hpl
      rcases List.mem_append.mp hpl with h1 | h2
      · exact stacked_color_mem _ _ _ _ _ _ _ _ p h1
      · obtain ⟨t, _, rfl⟩ := List.mem_map.mp h2; rfl
    · simp only [List.filterMap_append, color_none_epochs, color_none_events,
        eq_self_iff_true, if_true, List.filterMap_nil, List.append_nil,
        List.nil_append] at hpl
      exact stacked_color_mem _ _ _ _ _ _ _ _ p hpl
  · rw [buildCore_split_subplots] at hsp
    obtain ⟨b, hb, hab⟩ := mapLast_mem _ _ _ hsp
    rw [List.map_map] at hb
    obtain ⟨c, _, rfl⟩ := List.mem_map.mp hb
    have hit : sp.items
        = (splitChannel sigs events epochs trains spikes
          (if spike_train_waveforms then
            trains.foldl (fun acc st => acc ++ spikes_from_spike_train st) []
          else spikes) spike_train_waveforms (xAxis sigs tu) tu c).1.items := by
      rcases hab with rfl | rfl <;> rfl
    rw [coloredItems, hit] at hpl
    cases spike_train_waveforms
    · simp only [splitChannel, add_spike_waveforms_eq, List.filterMap_append,
        List.filterMap_cons, colorExtract, color_none_epochs,
        color_none_events, color_some_waves, color_some_ticks,
        Bool.false_eq_true, if_false, List.append_nil,
        List.nil_append] at hpl
      rcases List.mem_append.mp hpl with h1 | h2
      · rcases List.mem_append.mp h1 with ha | hb
        · obtain ⟨s, _, rfl⟩ := List.mem_map.mp ha; rfl
        · obtain ⟨s, _, rfl⟩ := List.mem_map.mp hb; rfl
      · obtain ⟨t, _, rfl⟩ := List.mem_map.mp h2; rfl
    · simp only [splitChannel, add_spike_waveforms_eq, List.filterMap_append,
        List.filterMap_cons, colorExtract, color_none_epochs,
        color_none_events, color_some_waves, eq_self_iff_true, if_true,
        List.filterMap_nil, List.append_nil, List.nil_append] at hpl
      rcases List.mem_append.mp hpl with h1 | h1 <;>
        (obtain ⟨s, _, rfl⟩ := List.mem_map.mp h1; rfl)

/-- C9: within one call, any two colored items drawn — spike waveform
curves or spike-train tick marks, in either mode — whose logical units
coincide receive the same draw color; the color is a function of the unit
alone, so it is independent of the order in which items are drawn. -/
theorem C9_color_determinism (sigs : List AnalogSignal)
    (events : List PlotEvent) (epochs : List Epoch) (trains : List SpikeTrain)
    (spikes : List Spike) (spike_train_waveforms use_subplots : Bool)
    (tu : TimeUnit) (p q : NeoUnit × Nat)
    (hp : p ∈ windowColoredItems (buildCore sigs events epochs trains spikes
      spike_train_waveforms use_subplots tu).win)
    (hq : q ∈ windowColoredItems (buildCore sigs events epochs trains spikes
      spike_train_waveforms use_subplots tu).win)
    (hu : p.1 = q.1) : p.2 = q.2 := by
  rw [buildCore_item_colors sigs events epochs trains spikes
      spike_train_waveforms use_subplots tu p hp,
    buildCore_item_colors sigs events epochs trains spikes
      spike_train_waveforms use_subplots tu q hq, hu]

/-- C9 witness: a demo spike drawn as a waveform curve and a demo spike
train drawn as tick marks, sharing one logical unit, receive the same
color within one call. -/
theorem C9_color_determinism_witness :
    ((spDemo.unit, get_object_color spDemo.unit)
        ∈ windowColoredItems (buildCore [sigA] [] [] [trainDemo] [spDemo]
          false true tuS).win ∧
      (trainDemo.unit, get_object_color trainDemo.unit)
        ∈ windowColoredItems (buildCore [sigA] [] [] [trainDemo] [spDemo]
          false true tuS).win ∧
      (spDemo.unit, get_object_color spDemo.unit).1
        = (trainDemo.unit, get_object_color trainDemo.unit).1) ∧
    (spDemo.unit, get_object_color spDemo.unit).2
      = (trainDemo.unit, get_object_color trainDemo.unit).2 := by
  have h1 : List.range 1 = [0] := rfl
  have hp : (spDemo.unit, get_object_color spDemo.unit)
      ∈ windowColoredItems (buildCore [sigA] [] [] [trainDemo] [spDemo]
        false true tuS).win := by
    simp [windowColoredItems, buildCore, h1, mapLast, splitChannel,
      add_spike_waveforms_eq, coloredItems, color_some_waves,
      color_some_ticks, List.filterMap_cons, colorExtract, waveItemOf]
  have hq : (trainDemo.unit, get_object_color trainDemo.unit)
      ∈ windowColoredItems (buildCore [sigA] [] [] [trainDemo] [spDemo]
        false true tuS).win := by
    simp [windowColoredItems, buildCore, h1, mapLast, splitChannel,
      add_spike_waveforms_eq, coloredItems, color_some_waves,
      color_some_ticks, List.filterMap_cons, colorExtract, waveItemOf]
  have hu : (spDemo.unit, get_object_color spDemo.unit).1
      = (trainDemo.unit, get_object_color trainDemo.unit).1 := rfl
  exact ⟨⟨hp, hq, hu⟩,
    C9_color_determinism [sigA] [] [] [trainDemo] [spDemo] false true tuS
      _ _ hp hq hu⟩

/-- C8: for every call on a non-empty signal list, the window title is the
base title followed by the recording-channel fragment and the segment
fragment, and each fragment is non-empty (i.e. appended) exactly when all
input signals share one recording channel (respectively segment) whose
name is non-empty; mixed or unnamed cases leave the fragment empty. -/
theorem C8_title_fragments (sigs : List AnalogSignal) (events : List PlotEvent)
    (epochs : List Epoch) (trains : List SpikeTrain) (spikes : List Spike)
    (spike_train_waveforms use_subplots : Bool) (tu : TimeUnit)
    (h : sigs ≠ []) :
    (buildCore sigs events epochs trains spikes spike_train_waveforms
      use_subplots tu).win.title
      = "Analog Signal" ++ rcFragment sigs ++ segFragment sigs ∧
    (rcFragment sigs ≠ ""
      ↔ (∀ s ∈ sigs, s.recordingchannel
            = (sigs.headD noSignal).recordingchannel)
          ∧ (sigs.headD noSignal).recordingchannel.name ≠ "") ∧
    (segFragment sigs ≠ ""
      ↔ (∀ s ∈ sigs, s.segment = (sigs.headD noSignal).segment)
          ∧ (sigs.headD noSignal).segment.name ≠ "") := by
  obtain ⟨s0, t, rfl⟩ := List.exists_cons_of_ne_nil h
  have hcard : ((s0 :: t).map (fun s => s.recordingchannel)).toFinset.card = 1
      ↔ ∀ s ∈ s0 :: t, s.recordingchannel = s0.recordingchannel := by
    rw [List.map_cons, toFinset_card_one_iff]
    constructor
    · intro hall s hs
      rcases List.mem_cons.mp hs with rfl | hs2
      · rfl
      · exact hall _ (List.mem_cons_of_mem _ (List.mem_map_of_mem _ hs2))
    · intro hall x hx
      rcases List.mem_cons.mp hx with rfl | hx2
      · rfl
      · obtain ⟨s, hs, rfl⟩ := List.mem_map.mp hx2
        exact hall s (List.mem_cons_of_mem _ hs)
  have hcards : ((s0 :: t).map (fun s => s.segment)).toFinset.card = 1
      ↔ ∀ s ∈ s0 :: t, s.segment = s0.segment := by
    rw [List.map_cons, toFinset_card_one_iff]
    constructor
    · intro hall s hs
      rcases List.mem_cons.mp hs with rfl | hs2
      · rfl
      · exact hall _ (List.mem_cons_of_mem _ (List.mem_map_of_mem _ hs2))
    · intro hall x hx
      rcases List.mem_cons.mp hx with rfl | hx2
      · rfl
      · obtain ⟨s, hs, rfl⟩ := List.mem_map.mp hx2
        exact hall s (List.mem_cons_of_mem _ hs)
  have hh : (s0 :: t).headD noSignal = s0 := rfl
  refine ⟨by rw [buildCore_title, winTitle], ?_, ?_⟩
  · rw [rcFragment, hh]
    by_cases h1 : ((s0 :: t).map (fun s => s.recordingchannel)).toFinset.card
        = 1
    · rw [if_pos h1]
      by_cases h2 : s0.recordingchannel.name ≠ ""
      · rw [if_pos h2]
        constructor
        · intro _; exact ⟨hcard.mp h1, h2⟩
        · intro _
          exact str_append_ne_empty _ _ (by decide)
      · rw [if_neg h2]
        constructor
        · intro hx; exact absurd rfl hx
        · rintro ⟨_, hn⟩; exact absurd hn h2
    · rw [if_neg h1]
      constructor
      · intro hx; exact absurd rfl hx
      · rintro ⟨hall, _⟩
        exact absurd (hcard.mpr hall) h1
  · rw [segFragment, hh]
    by_cases h1 : ((s0 :: t).map (fun s => s.segment)).toFinset.card = 1
    · rw [if_pos h1]
      by_cases h2 : s0.segment.name ≠ ""
      · rw [if_pos h2]
        constructor
        · intro _; exact ⟨hcards.mp h1, h2⟩
        · intro _
          exact str_append_ne_empty _ _ (by decide)
      · rw [if_neg h2]
        constructor
        · intro hx; exact absurd rfl hx
        · rintro ⟨_, hn⟩; exact absurd hn h2
    · rw [if_neg h1]
      constructor
      · intro hx; exact absurd rfl hx
      · rintro ⟨hall, _⟩
        exact absurd (hcards.mpr hall) h1

/-- C8 witness: the title statement at the two-signal demo input (shared
named recording channel and segment). -/
theorem C8_title_fragments_witness :
    ([sigA, sigB] ≠ ([] : List AnalogSignal)) ∧
    ((buildCore [sigA, sigB] [] [] [] [] true true tuS).win.title
      = "Analog Signal" ++ rcFragment [sigA, sigB] ++ segFragment [sigA, sigB] ∧
    (rcFragment [sigA, sigB] ≠ ""
      ↔ (∀ s ∈ [sigA, sigB], s.recordingchannel
            = ([sigA, sigB].headD noSignal).recordingchannel)
          ∧ ([sigA, sigB].headD noSignal).recordingchannel.name ≠ "") ∧
    (segFragment [sigA, sigB] ≠ ""
      ↔ (∀ s ∈ [sigA, sigB], s.segment = ([sigA, sigB].headD noSignal).segment)
          ∧ ([sigA, sigB].headD noSignal).segment.name ≠ "")) :=
  ⟨by simp,
   C8_title_fragments [sigA, sigB] [] [] [] [] true true tuS (by simp)⟩

end Spykeutils
